import Mathlib

/-!
Verification of the `owl` terminal text editor (`src/main.rs`) against its
natural-language specification.

The editor core is shallowly embedded: the rope text is a `List Char`, the
event loop body of `run` is the `step` function, and fallible operations
(the bounds checks of ropey, `unwrap`, `usize` underflow, `words[0]` indexing)
return `Option`, with `none` modelling a process panic.  File-system effects
are explicit: a `FS` association list threaded through `step`, and a
`writeOk` flag standing for the success of `File::create` + `write_to`.
-/

/-- Lines of a rope, each line keeping its terminating newline; the last line
has none and may be empty.  Mirrors the line segmentation of ropey, where a text
with `n` newline characters has `n + 1` lines. -/
def ropeLines : List Char → List (List Char)
  | [] => [[]]
  | c :: rest =>
    if c = '\n' then [c] :: ropeLines rest
    else
      match ropeLines rest with
      | [] => [[c]]
      | l :: ls => (c :: l) :: ls

/-- Number of lines of the rope, as `len_lines` of ropey. -/
def lenLines (t : List Char) : Nat := (ropeLines t).length

/-- Drop a trailing newline, as the `ends_with + pop` in `Editor::currline`. -/
def stripNewline (l : List Char) : List Char :=
  if l.getLast? = some '\n' then l.dropLast else l

/-- Line `i` of the rope with its trailing newline stripped; `none` when the
index is out of range (the ropey `line` lookup panics there). -/
def lineAt (t : List Char) (i : Nat) : Option (List Char) :=
  ((ropeLines t)[i]?).map stripNewline

/-- Char offset of the start of line `i` (sum of the full lengths of the
lines before it), as the ropey `line_to_char`. -/
def lineToChar (t : List Char) (i : Nat) : Nat :=
  (((ropeLines t).take i).map List.length).sum

/-- The operation `line_to_char` with the ropey bounds check: valid for `i ≤ len_lines`. -/
def lineToCharOpt (t : List Char) (i : Nat) : Option Nat :=
  if i ≤ lenLines t then some (lineToChar t i) else none

/-- The operation `insert_char` at a char offset; `none` when the offset is out of range
(ropey panics there). -/
def insertCharAt (t : List Char) (pos : Nat) (c : Char) : Option (List Char) :=
  if pos ≤ t.length then some (t.take pos ++ c :: t.drop pos) else none

/-- The operation `remove` of a half-open char range; `none` when the range is invalid
(ropey panics there). -/
def removeRange (t : List Char) (s e : Nat) : Option (List Char) :=
  if s ≤ e ∧ e ≤ t.length then some (t.take s ++ t.drop e) else none

/-- Accumulator pass of `split_whitespace`. -/
def splitWsAux : List Char → List Char → List (List Char)
  | [], acc => if acc.isEmpty then [] else [acc.reverse]
  | c :: rest, acc =>
    if c.isWhitespace then
      if acc.isEmpty then splitWsAux rest []
      else acc.reverse :: splitWsAux rest []
    else splitWsAux rest (c :: acc)

/-- Rust's `split_whitespace().collect()`: whitespace-separated words, empty
words skipped. -/
def splitWs (t : List Char) : List (List Char) := splitWsAux t []

/-- The file system visible to the editor: newest write first. -/
abbrev FS := List (String × List Char)

/-- Contents of path `p`, when it exists. -/
def fsRead (fs : FS) (p : String) : Option (List Char) :=
  match fs with
  | [] => none
  | (q, t) :: rest => if q = p then some t else fsRead rest p

/-- Overwrite-on-save of path `p` (`File::create` truncates or creates). -/
def fsWrite (fs : FS) (p : String) (t : List Char) : FS := (p, t) :: fs

/-- The three values ever assigned to the string-typed `mode` field. -/
inductive Mode
  | Normal
  | Insert
  | Command
deriving DecidableEq

/-- The key events the `run` loop distinguishes. -/
inductive Key
  | char : Char → Key
  | backspace
  | enter
  | esc
deriving DecidableEq

/-- The `Editor` struct of `main.rs`. -/
structure Editor where
  text : List Char
  filename : Option String
  cursor_col : Nat
  cursor_row : Nat
  shift_row : Nat
  mode : Mode
  cmd_message : List Char
  dirty : Bool
deriving DecidableEq

/-- The editor together with the locals of `run` that persist across loop
iterations (`prefered_col`, `prev_cursor_row`, `prev_cursor_col`). -/
structure LoopState where
  editor : Editor
  prefered_col : Option Nat
  prev_cursor_row : Nat
  prev_cursor_col : Nat
deriving DecidableEq

/-- The method `Editor::currline`: the line under the cursor, trailing newline
stripped; `none` models the ropey out-of-bounds panic. -/
def Editor.currline (e : Editor) : Option (List Char) :=
  lineAt e.text (e.shift_row + e.cursor_row)

/-- The method `Editor::line_max`: the char count of the line under the cursor. -/
def Editor.line_max (e : Editor) : Option Nat := e.currline.map List.length

/-- The method `Editor::save`.  `writeOk` is whether `File::create` + `write_to`
succeed; on failure the source calls `unwrap`, i.e. panics (`none`).  The
`Bool` in the result is the return value of `save`. -/
def Editor.save (e : Editor) (writeOk : Bool) (fs : FS) :
    Option (Editor × FS × Bool) :=
  match e.filename with
  | some p =>
    if writeOk then
      some ({ e with
               cmd_message := ("\"" ++ p ++ "\"" ++ " written").data,
               dirty := false },
            fsWrite fs p e.text, true)
    else none
  | none =>
    some ({ e with cmd_message := ("Cannot save file without a name").data },
          fs, false)

/-- Outcome of one iteration of the `run` loop body: keep looping with a new
state, or `break` out of the loop (session ends). -/
inductive StepRes
  | cont : LoopState → StepRes
  | exit : LoopState → StepRes
deriving DecidableEq

/-- The `Enter`-in-Command-mode arm of `run`: restore the saved cursor,
split the captured command on whitespace, and dispatch.  `none` models a
panic (`words[0]` on an empty split, or the `unwrap` inside `save`). -/
def interpretEnter (writeOk : Bool) (fs : FS) (s : LoopState) :
    Option (StepRes × FS) :=
  let e0 := s.editor
  let words := splitWs e0.cmd_message
  let e1 := { e0 with
              cursor_col := s.prev_cursor_col,
              cursor_row := s.prev_cursor_row }
  match words with
  | [] => none
  | w :: _ =>
    if w = (":q").data ∨ w = (":quit").data then
      if e1.dirty then
        some (.cont { s with editor :=
          { e1 with
            cmd_message :=
              ("Unsaved changes! Save file with :w or force quit :q!").data,
            mode := .Normal } }, fs)
      else
        some (.exit { s with editor := e1 }, fs)
    else if w = (":q!").data then
      some (.exit { s with editor := e1 }, fs)
    else if w = (":w").data ∨ w = (":write").data then
      let e2 :=
        if words.length > 2 then
          { e1 with cmd_message := ("Too many args for :write").data }
        else if words.length = 2 then
          match words with
          | _ :: w1 :: _ => { e1 with filename := some (String.mk w1) }
          | _ => e1
        else e1
      let e3 := { e2 with mode := .Normal }
      match e3.save writeOk fs with
      | none => none
      | some (e4, fs2, _) => some (.cont { s with editor := e4 }, fs2)
    else if w = (":wq").data then
      let e2 :=
        if words.length > 2 then
          { e1 with cmd_message := ("Too many args for :wq").data }
        else if words.length = 2 then
          match words with
          | _ :: w1 :: _ => { e1 with filename := some (String.mk w1) }
          | _ => e1
        else e1
      match e2.save writeOk fs with
      | none => none
      | some (e4, fs2, ok) =>
        if ok then some (.exit { s with editor := e4 }, fs2)
        else some (.cont { s with editor := { e4 with mode := .Normal } }, fs2)
    else
      some (.cont { s with editor :=
        { e1 with
          mode := .Normal,
          cmd_message := ("Unrecognized command ").data ++ e0.cmd_message } },
        fs)

/-- Key `h` in Normal mode: move left, saturating at column 0. -/
def moveLeft (fs : FS) (s : LoopState) : Option (StepRes × FS) :=
  let e := s.editor
  let e' := if e.cursor_col ≠ 0 then { e with cursor_col := e.cursor_col - 1 } else e
  some (.cont { s with editor := e' }, fs)

/-- Key `j` in Normal mode: capture the sticky column if unset, move the cursor
down inside the window or scroll, then clamp the column to the new line. -/
def moveDown (rows : Nat) (fs : FS) (s : LoopState) : Option (StepRes × FS) :=
  let e := s.editor
  let p := match s.prefered_col with | none => e.cursor_col | some v => v
  let e' :=
    if e.cursor_row ≠ rows - 1 - 2 ∧ e.cursor_row + 1 < lenLines e.text then
      { e with cursor_row := e.cursor_row + 1 }
    else if e.shift_row + rows - 2 < lenLines e.text - 1 then
      { e with shift_row := e.shift_row + 1 }
    else e
  match e'.line_max with
  | none => none
  | some lm =>
    some (.cont { s with
      prefered_col := some p,
      editor := { e' with cursor_col := min p lm } }, fs)

/-- Key `k` in Normal mode: capture the sticky column if unset, move the cursor
up inside the window or scroll, then clamp the column to the new line. -/
def moveUp (fs : FS) (s : LoopState) : Option (StepRes × FS) :=
  let e := s.editor
  let p := match s.prefered_col with | none => e.cursor_col | some v => v
  let e' :=
    if e.cursor_row ≠ 0 then { e with cursor_row := e.cursor_row - 1 }
    else if e.shift_row ≠ 0 then { e with shift_row := e.shift_row - 1 }
    else e
  match e'.line_max with
  | none => none
  | some lm =>
    some (.cont { s with
      prefered_col := some p,
      editor := { e' with cursor_col := min p lm } }, fs)

/-- Key `l` in Normal mode: move right, bounded by the terminal width and the
line length; the `&&` short-circuit means the line is only inspected when
the width check passes. -/
def moveRight (cols : Nat) (fs : FS) (s : LoopState) : Option (StepRes × FS) :=
  let e := s.editor
  if e.cursor_col = cols - 1 then some (.cont s, fs)
  else
    match e.line_max with
    | none => none
    | some lm =>
      if e.cursor_col < lm then
        some (.cont { s with editor := { e with cursor_col := e.cursor_col + 1 } }, fs)
      else some (.cont s, fs)

/-- Key `:` in Normal mode: enter Command mode, set the command buffer to `:`,
save the cursor and park it on the message line. -/
def openCommandLine (rows : Nat) (fs : FS) (s : LoopState) : Option (StepRes × FS) :=
  let e := s.editor
  some (.cont { s with
    editor := { e with
      mode := .Command,
      cmd_message := [':'],
      cursor_row := rows - 1,
      cursor_col := 1 },
    prev_cursor_col := e.cursor_col,
    prev_cursor_row := e.cursor_row }, fs)

/-- A printable key in Command mode: insert into the command buffer. -/
def commandInsertChar (c : Char) (fs : FS) (s : LoopState) : Option (StepRes × FS) :=
  let e := s.editor
  match insertCharAt e.cmd_message e.cursor_col c with
  | none => none
  | some m =>
    some (.cont { s with editor :=
      { e with cmd_message := m, cursor_col := e.cursor_col + 1 } }, fs)

/-- Backspace in Command mode: abort to Normal when only the `:` is left,
otherwise delete the character before the cursor in the command buffer. -/
def commandBackspace (fs : FS) (s : LoopState) : Option (StepRes × FS) :=
  let e := s.editor
  if e.cursor_col = 1 then
    some (.cont { s with editor :=
      { e with
        mode := .Normal,
        cmd_message := [],
        cursor_col := s.prev_cursor_col,
        cursor_row := s.prev_cursor_row } }, fs)
  else if e.cursor_col = 0 then none
  else
    match removeRange e.cmd_message (e.cursor_col - 1) e.cursor_col with
    | none => none
    | some m =>
      some (.cont { s with editor :=
        { e with cmd_message := m, cursor_col := e.cursor_col - 1 } }, fs)

/-- Esc in Command mode: discard the command buffer and restore the cursor. -/
def commandEsc (fs : FS) (s : LoopState) : Option (StepRes × FS) :=
  let e := s.editor
  some (.cont { s with editor :=
    { e with
      mode := .Normal,
      cmd_message := [],
      cursor_col := s.prev_cursor_col,
      cursor_row := s.prev_cursor_row } }, fs)

/-- Esc in Insert mode: back to Normal, clearing the status message. -/
def insertEsc (fs : FS) (s : LoopState) : Option (StepRes × FS) :=
  let e := s.editor
  some (.cont { s with editor :=
    { e with mode := .Normal, cmd_message := [] } }, fs)

/-- Key `i` in Normal mode: enter Insert mode, cursor unchanged. -/
def enterInsert (fs : FS) (s : LoopState) : Option (StepRes × FS) :=
  let e := s.editor
  some (.cont { s with editor :=
    { e with mode := .Insert, cmd_message := [] } }, fs)

/-- Key `a` in Normal mode: enter Insert mode one column right, clamped. -/
def enterInsertAppend (fs : FS) (s : LoopState) : Option (StepRes × FS) :=
  let e := s.editor
  match e.line_max with
  | none => none
  | some lm =>
    some (.cont { s with editor :=
      { e with
        mode := .Insert,
        cursor_col := min (e.cursor_col + 1) lm,
        cmd_message := [] } }, fs)

/-- Key `I` in Normal mode: enter Insert mode at column 0. -/
def enterInsertLineStart (fs : FS) (s : LoopState) : Option (StepRes × FS) :=
  let e := s.editor
  some (.cont { s with editor :=
    { e with mode := .Insert, cursor_col := 0, cmd_message := [] } }, fs)

/-- Key `A` in Normal mode: enter Insert mode at the end of the line. -/
def enterInsertLineEnd (fs : FS) (s : LoopState) : Option (StepRes × FS) :=
  let e := s.editor
  match e.line_max with
  | none => none
  | some lm =>
    some (.cont { s with editor :=
      { e with mode := .Insert, cursor_col := lm, cmd_message := [] } }, fs)

/-- Key `o` in Normal mode: open a new line below the current one. -/
def openLineBelow (fs : FS) (s : LoopState) : Option (StepRes × FS) :=
  let e := s.editor
  match e.line_max with
  | none => none
  | some lm =>
    match lineToCharOpt e.text (e.cursor_row + e.shift_row) with
    | none => none
    | some ls =>
      match insertCharAt e.text (ls + lm) '\n' with
      | none => none
      | some t =>
        some (.cont { s with editor :=
          { e with
            mode := .Insert,
            dirty := true,
            text := t,
            cursor_row := e.cursor_row + 1,
            cursor_col := 0,
            cmd_message := [] } }, fs)

/-- Key `O` in Normal mode: open a new line above the current one. -/
def openLineAbove (fs : FS) (s : LoopState) : Option (StepRes × FS) :=
  let e := s.editor
  match lineToCharOpt e.text (e.cursor_row + e.shift_row) with
  | none => none
  | some ls =>
    match insertCharAt e.text ls '\n' with
    | none => none
    | some t =>
      some (.cont { s with editor :=
        { e with
          mode := .Insert,
          dirty := true,
          text := t,
          cursor_col := 0,
          cmd_message := [] } }, fs)

/-- A printable key in Insert mode: insert at the cursor offset. -/
def insertChar (c : Char) (fs : FS) (s : LoopState) : Option (StepRes × FS) :=
  let e := s.editor
  match lineToCharOpt e.text (e.cursor_row + e.shift_row) with
  | none => none
  | some ls =>
    match insertCharAt e.text (ls + e.cursor_col) c with
    | none => none
    | some t =>
      some (.cont { s with editor :=
        { e with dirty := true, text := t, cursor_col := e.cursor_col + 1 } }, fs)

/-- Backspace in Insert mode: no-op at screen position `(0, 0)`; at column 0
move up to the end of the previous line; otherwise step left; in the two
deleting cases remove the character before the original cursor offset. -/
def insertBackspace (fs : FS) (s : LoopState) : Option (StepRes × FS) :=
  let e := s.editor
  if e.cursor_col = 0 ∧ e.cursor_row = 0 then some (.cont s, fs)
  else
    match lineToCharOpt e.text (e.cursor_row + e.shift_row) with
    | none => none
    | some ls =>
      let pos := ls + e.cursor_col
      let moved :=
        if e.cursor_col ≠ 0 then some { e with cursor_col := e.cursor_col - 1 }
        else
          let e2 := { e with cursor_row := e.cursor_row - 1 }
          match e2.line_max with
          | none => none
          | some lm => some { e2 with cursor_col := lm }
      match moved with
      | none => none
      | some e3 =>
        if pos = 0 then none
        else
          match removeRange e.text (pos - 1) pos with
          | none => none
          | some t => some (.cont { s with editor := { e3 with text := t } }, fs)

/-- Enter in Insert mode: insert a newline, move to the start of the next
line. -/
def insertNewline (fs : FS) (s : LoopState) : Option (StepRes × FS) :=
  let e := s.editor
  match lineToCharOpt e.text (e.cursor_row + e.shift_row) with
  | none => none
  | some ls =>
    match insertCharAt e.text (ls + e.cursor_col) '\n' with
    | none => none
    | some t =>
      some (.cont { s with editor :=
        { e with
          dirty := true,
          text := t,
          cursor_row := e.cursor_row + 1,
          cursor_col := 0 } }, fs)

/-- Dispatch of a character key event, by current mode; `s` is the loop
state after the sticky-column reset.  The Rust match arms are pairwise
disjoint, so grouping them by mode with a first-match if-chain on the
character preserves the source dispatch exactly. -/
def dispatchChar (cols rows : Nat) (fs : FS) (s : LoopState) (c : Char)
    (m : Mode) : Option (StepRes × FS) :=
  match m with
  | .Normal =>
    if c = 'q' then some (.cont s, fs)
    else if c = 'h' then moveLeft fs s
    else if c = 'j' then moveDown rows fs s
    else if c = 'k' then moveUp fs s
    else if c = 'l' then moveRight cols fs s
    else if c = ':' then openCommandLine rows fs s
    else if c = 'i' then enterInsert fs s
    else if c = 'a' then enterInsertAppend fs s
    else if c = 'I' then enterInsertLineStart fs s
    else if c = 'A' then enterInsertLineEnd fs s
    else if c = 'o' then openLineBelow fs s
    else if c = 'O' then openLineAbove fs s
    else some (.cont s, fs)
  | .Command => commandInsertChar c fs s
  | .Insert => insertChar c fs s

/-- One iteration of the `run` event-loop body on a key event, translated
from the `match (keyev.code, editor.mode)` in `main.rs`.  A character key
first applies the `prefered_col` reset that precedes the source match: any
character other than `j`/`k` clears the sticky column, in every mode.
`none` models a panic. -/
def step (cols rows : Nat) (writeOk : Bool) (fs : FS) (s0 : LoopState)
    (k : Key) : Option (StepRes × FS) :=
  match k with
  | .char c =>
    dispatchChar cols rows fs
      (if c ≠ 'j' ∧ c ≠ 'k' then { s0 with prefered_col := none } else s0)
      c s0.editor.mode
  | .backspace =>
    match s0.editor.mode with
    | .Command => commandBackspace fs s0
    | .Insert => insertBackspace fs s0
    | .Normal => some (.cont s0, fs)
  | .esc =>
    match s0.editor.mode with
    | .Command => commandEsc fs s0
    | .Insert => insertEsc fs s0
    | .Normal => some (.cont s0, fs)
  | .enter =>
    match s0.editor.mode with
    | .Command => interpretEnter writeOk fs s0
    | .Insert => insertNewline fs s0
    | .Normal => some (.cont s0, fs)

/-- Result of feeding a whole key sequence to the loop. -/
inductive Outcome
  | ok : LoopState → FS → Outcome
  | exited : LoopState → FS → Outcome
  | panicked : Outcome
deriving DecidableEq

/-- Run the loop body over a list of key events; a `break` stops the run and
a panic aborts it. -/
def runKeys (cols rows : Nat) (writeOk : Bool) :
    LoopState → FS → List Key → Outcome
  | s, fs, [] => .ok s fs
  | s, fs, k :: ks =>
    match step cols rows writeOk fs s k with
    | none => .panicked
    | some (.exit s', fs') => .exited s' fs'
    | some (.cont s', fs') => runKeys cols rows writeOk s' fs' ks

/-- The `Editor` value built at the top of `run`. -/
def initEditor (text : List Char) (filename : Option String) : Editor :=
  { text := text
    filename := filename
    cursor_col := 0
    cursor_row := 0
    shift_row := 0
    mode := .Normal
    cmd_message := []
    dirty := false }

/-- Initial loop state: `prefered_col = None`, saved cursor `(0, 0)`. -/
def initLoop (e : Editor) : LoopState :=
  { editor := e, prefered_col := none, prev_cursor_row := 0, prev_cursor_col := 0 }

/-- Startup file handling at the top of `run`: with a filename the file is
opened with `read + write + create`, so a missing file is created empty
right away, and the rope is read from it. -/
def startup (fs : FS) (filename : Option String) : FS × Editor :=
  match filename with
  | some p =>
    match fsRead fs p with
    | some contents => (fs, initEditor contents (some p))
    | none => (fsWrite fs p [], initEditor [] (some p))
  | none => (fs, initEditor [] none)

/-! ## Basic facts about the rope model -/

/-- A rope always has at least one line. -/
theorem ropeLines_ne_nil (t : List Char) : ropeLines t ≠ [] := by
  cases t with
  | nil => simp [ropeLines]
  | cons c rest =>
    simp only [ropeLines]
    split
    · simp
    · rcases h : ropeLines rest with _ | ⟨l, ls⟩
      · show [[c]] ≠ []
        simp
      · show (c :: l) :: ls ≠ []
        simp

/-- The first line of a nonempty rope is nonempty. -/
theorem ropeLines_head (c : Char) (rest : List Char) :
    ∃ l ls, ropeLines (c :: rest) = l :: ls ∧ l ≠ [] := by
  simp only [ropeLines]
  split
  · exact ⟨[c], ropeLines rest, rfl, by simp⟩
  · rcases h : ropeLines rest with _ | ⟨l, ls⟩
    · exact ⟨[c], [], rfl, by simp⟩
    · exact ⟨c :: l, ls, rfl, by simp⟩

/-- The line lengths sum to the length of the text. -/
theorem ropeLines_length_sum (t : List Char) :
    ((ropeLines t).map List.length).sum = t.length := by
  induction t with
  | nil => simp [ropeLines]
  | cons c rest ih =>
    simp only [ropeLines]
    split
    · simp only [List.map_cons, List.sum_cons, ih, List.length_cons,
        List.length_nil]
      omega
    · rcases h : ropeLines rest with _ | ⟨l, ls⟩
      · exact absurd h (ropeLines_ne_nil rest)
      · rw [h] at ih
        simp only [List.map_cons, List.sum_cons, List.length_cons] at ih ⊢
        omega

/-- Prefix sums of a list of naturals are bounded by the total sum. -/
theorem sum_take_le (l : List Nat) (i : Nat) : (l.take i).sum ≤ l.sum := by
  induction l generalizing i with
  | nil => simp
  | cons a l ih =>
    cases i with
    | zero => simp
    | succ n =>
      simp only [List.take_succ_cons, List.sum_cons]
      exact Nat.add_le_add_left (ih n) a

/-- Line starts never exceed the text length. -/
theorem lineToChar_le (t : List Char) (i : Nat) : lineToChar t i ≤ t.length := by
  unfold lineToChar
  calc (((ropeLines t).take i).map List.length).sum
      = (((ropeLines t).map List.length).take i).sum := by rw [List.map_take]
    _ ≤ ((ropeLines t).map List.length).sum := sum_take_le _ i
    _ = t.length := ropeLines_length_sum t

/-- The start of line `i + 1` is the start of line `i` plus the full length
of line `i`. -/
theorem lineToChar_succ (t : List Char) (i : Nat) (l : List Char)
    (h : (ropeLines t)[i]? = some l) :
    lineToChar t (i + 1) = lineToChar t i + l.length := by
  unfold lineToChar
  rw [List.take_succ, h]
  simp

/-- Stripping a trailing newline cannot lengthen a line. -/
theorem stripNewline_length_le (l : List Char) :
    (stripNewline l).length ≤ l.length := by
  unfold stripNewline
  split
  · simp [List.length_dropLast]
  · exact Nat.le_refl _

/-- Lines after the first start at a positive offset. -/
theorem lineToChar_pos (t : List Char) (i : Nat) (h1 : 1 ≤ i)
    (h2 : i < lenLines t) : 1 ≤ lineToChar t i := by
  cases t with
  | nil => simp [lenLines, ropeLines] at h2; omega
  | cons c rest =>
    obtain ⟨l, ls, hE, hne⟩ := ropeLines_head c rest
    unfold lineToChar
    rw [hE]
    obtain ⟨n, rfl⟩ : ∃ n, i = n + 1 := ⟨i - 1, by omega⟩
    simp only [List.take_succ_cons, List.map_cons, List.sum_cons]
    have hl : 1 ≤ l.length := by
      cases l with
      | nil => exact absurd rfl hne
      | cons a as => simp
    omega

/-- A valid line index yields a line. -/
theorem lineAt_isSome (t : List Char) (i : Nat) (h : i < lenLines t) :
    ∃ l, lineAt t i = some l := by
  unfold lineAt
  have : i < (ropeLines t).length := h
  rw [List.getElem?_eq_getElem this]
  exact ⟨_, rfl⟩

/-- A line lookup that succeeds certifies the index. -/
theorem lt_lenLines_of_lineAt (t : List Char) (i : Nat) (l : List Char)
    (h : lineAt t i = some l) : i < lenLines t := by
  unfold lineAt at h
  rcases hg : (ropeLines t)[i]? with _ | lf
  · rw [hg] at h; simp at h
  · exact (List.getElem?_eq_some.mp hg).1

/-! ## Claim C1 -/

/-- Command-mode state about to dispatch `:w a b` (two path arguments) on a
dirty buffer with an associated file. -/
def c1Input : LoopState :=
  { editor :=
    { text := "hello".data
      filename := some "f.txt"
      cursor_col := 6
      cursor_row := 23
      shift_row := 0
      mode := .Command
      cmd_message := ":w a b".data
      dirty := true }
    prefered_col := none
    prev_cursor_row := 0
    prev_cursor_col := 2 }

/-- State actually produced by dispatching `:w a b`. -/
def c1Result : LoopState :=
  { editor :=
    { text := "hello".data
      filename := some "f.txt"
      cursor_col := 2
      cursor_row := 0
      shift_row := 0
      mode := .Normal
      cmd_message := ("\"f.txt\" written").data
      dirty := false }
    prefered_col := none
    prev_cursor_row := 0
    prev_cursor_col := 2 }

/-- C1: dispatching `:w` with more than one argument does set the
"too many args" message, but the code then calls `save()` unconditionally,
which performs the write (the file appears on the file system), clears
`dirty`, and overwrites the error message with the save confirmation —
contradicting the claim that no save is attempted. -/
theorem c1_too_many_args_still_saves :
    step 80 24 true [] c1Input .enter =
      some (.cont c1Result, [("f.txt", "hello".data)]) ∧
    c1Result.editor.dirty = false ∧
    c1Result.editor.cmd_message = ("\"f.txt\" written").data ∧
    c1Result.editor.cmd_message ≠ ("Too many args for :write").data := by
  decide

/-! ## Claim C2 -/

/-- C2: a key-event-only run that panics.  On a 4-row terminal with a
six-line file, four `j` presses scroll `shift_row` to 3; `i` plus three
Enters push `cursor_row` past the visible window while growing the buffer;
after Esc, two more `j` presses pass the `cursor_row + 1 < len_lines` test
(which ignores `shift_row`) until `shift_row + cursor_row` reaches the line
count and the `text.line(...)` lookup in `line_max` is out of range. -/
theorem c2_reachable_panic :
    runKeys 80 4 true (initLoop (initEditor "a\nb\nc\nd\ne\nf".data (some "f"))) []
      [.char 'j', .char 'j', .char 'j', .char 'j', .char 'i', .enter, .enter,
       .enter, .esc, .char 'j', .char 'j'] = .panicked := by
  decide

/-! ## Claim C3 -/

/-- A dirty editor with an associated path. -/
def c3Input : Editor :=
  { text := "x".data
    filename := some "a.txt"
    cursor_col := 0
    cursor_row := 0
    shift_row := 0
    mode := .Normal
    cmd_message := []
    dirty := true }

/-- C3 counterexample: a save whose underlying write fails does not produce
any recoverable outcome — `save` hits the `unwrap` and panics (`none`), so
no status message is set and the session does not continue. -/
theorem c3_counterexample_write_error_panics :
    Editor.save c3Input false [] = none := by decide

/-- C3 amended: with an associated path, a failing write panics; only the
missing-path save failure is recoverable, setting the status message and
leaving every other field (in particular `dirty`) unchanged. -/
theorem c3_amended_save_failure (e : Editor) (fs : FS) :
    (∀ p, e.filename = some p → e.save false fs = none) ∧
    (e.filename = none →
      e.save false fs =
        some ({ e with cmd_message := ("Cannot save file without a name").data },
              fs, false)) := by
  constructor
  · intro p hp
    simp [Editor.save, hp]
  · intro hp
    simp [Editor.save, hp]

/-- A dirty editor without an associated path. -/
def c3NoName : Editor :=
  { text := "x".data
    filename := none
    cursor_col := 0
    cursor_row := 0
    shift_row := 0
    mode := .Normal
    cmd_message := []
    dirty := true }

/-- Witness for `c3_amended_save_failure` at a concrete editor. -/
theorem c3_amended_save_failure_witness :
    Editor.save c3NoName false [] =
      some ({ c3NoName with
              cmd_message := ("Cannot save file without a name").data },
            [], false) :=
  (c3_amended_save_failure c3NoName []).2 rfl

/-! ## Claim C4 -/

/-- Reduction: an Enter key event in Command mode runs the interpreter. -/
theorem step_enter_on_command (cols rows : Nat) (writeOk : Bool) (fs : FS)
    (ed : Editor) (pc : Option Nat) (pr pcc : Nat) (hm : ed.mode = .Command) :
    step cols rows writeOk fs ⟨ed, pc, pr, pcc⟩ .enter =
      interpretEnter writeOk fs ⟨ed, pc, pr, pcc⟩ := by
  obtain ⟨text, fn, cc, cr, sr, mode, msg, dirty⟩ := ed
  simp only at hm
  subst hm
  rfl

/-- C4: dispatching a command whose first token is `:q` or `:quit` on a
dirty buffer keeps the session alive, returns to Normal mode and shows the
save-or-force-quit message; on a clean buffer it terminates; a first token
`:q!` terminates unconditionally. -/
theorem c4_quit_dirty_guard (cols rows : Nat) (writeOk : Bool) (fs : FS)
    (s : LoopState) (w : List Char) (ws : List (List Char))
    (hm : s.editor.mode = .Command)
    (hw : splitWs s.editor.cmd_message = w :: ws) :
    ((w = (":q").data ∨ w = (":quit").data) → s.editor.dirty = true →
      ∃ s', step cols rows writeOk fs s .enter = some (.cont s', fs) ∧
        s'.editor.mode = .Normal ∧
        s'.editor.cmd_message =
          ("Unsaved changes! Save file with :w or force quit :q!").data) ∧
    ((w = (":q").data ∨ w = (":quit").data) → s.editor.dirty = false →
      ∃ s', step cols rows writeOk fs s .enter = some (.exit s', fs)) ∧
    (w = (":q!").data →
      ∃ s', step cols rows writeOk fs s .enter = some (.exit s', fs)) := by
  obtain ⟨⟨text, fn, cc, cr, sr, mode, msg, dirty⟩, pc, pr, pcc⟩ := s
  simp only at hm hw
  subst hm
  rw [step_enter_on_command cols rows writeOk fs _ pc pr pcc rfl]
  refine ⟨?_, ?_, ?_⟩
  · intro hQ hd
    simp only at hd
    subst hd
    refine ⟨⟨⟨text, fn, pcc, pr, sr, .Normal,
      ("Unsaved changes! Save file with :w or force quit :q!").data, true⟩,
      pc, pr, pcc⟩, ?_, rfl, rfl⟩
    simp only [interpretEnter]
    rw [hw]
    rcases hQ with hQ | hQ <;> subst hQ <;> rfl
  · intro hQ hd
    simp only at hd
    subst hd
    refine ⟨⟨⟨text, fn, pcc, pr, sr, .Command, msg, false⟩, pc, pr, pcc⟩, ?_⟩
    simp only [interpretEnter]
    rw [hw]
    rcases hQ with hQ | hQ <;> subst hQ <;> rfl
  · intro hQ
    subst hQ
    refine ⟨⟨⟨text, fn, pcc, pr, sr, .Command, msg, dirty⟩, pc, pr, pcc⟩, ?_⟩
    simp only [interpretEnter]
    rw [hw]
    rfl

/-- Command-mode state about to dispatch `:q` on a clean buffer. -/
def c4Clean : LoopState :=
  { editor :=
    { text := "x".data
      filename := none
      cursor_col := 2
      cursor_row := 23
      shift_row := 0
      mode := .Command
      cmd_message := ":q".data
      dirty := false }
    prefered_col := none
    prev_cursor_row := 0
    prev_cursor_col := 0 }

/-- Witness for `c4_quit_dirty_guard`: `:q` on a clean buffer terminates. -/
theorem c4_quit_dirty_guard_witness :
    ∃ s', step 80 24 true [] c4Clean .enter = some (.exit s', []) :=
  (c4_quit_dirty_guard 80 24 true [] c4Clean (":q").data [] rfl rfl).2.1
    (Or.inl rfl) rfl

/-! ## Claim C5 counterexample state and Claim C7 counterexample -/

/-- State reached from startup on `a\nb\nc\nd` (4-row terminal) by
`j j k i`: Insert mode at screen position `(0, 0)` with `shift_row = 1`,
i.e. column 0 of buffer line 1, which is not the first line. -/
def c5Mid : LoopState :=
  { editor :=
    { text := "a\nb\nc\nd".data
      filename := none
      cursor_col := 0
      cursor_row := 0
      shift_row := 1
      mode := .Insert
      cmd_message := []
      dirty := false }
    prefered_col := none
    prev_cursor_row := 0
    prev_cursor_col := 0 }

/-- C5 counterexample: at column 0 of buffer line 1 (a non-first line,
reachable by key events from startup), Backspace in Insert mode is a no-op
— the buffer is not merged — because the code tests the screen row
`cursor_row == 0`, not the document position. -/
theorem c5_counterexample_no_merge_at_top_of_viewport :
    runKeys 80 4 true (initLoop (initEditor "a\nb\nc\nd".data none)) []
      [.char 'j', .char 'j', .char 'k', .char 'i'] = .ok c5Mid [] ∧
    c5Mid.editor.shift_row + c5Mid.editor.cursor_row = 1 ∧
    c5Mid.editor.cursor_col = 0 ∧
    c5Mid.editor.mode = .Insert ∧
    step 80 4 true [] c5Mid .backspace = some (.cont c5Mid, []) := by
  decide

/-- State reached from startup on `a\nb` by pressing `j` then Esc. -/
def c7Final : LoopState :=
  { editor :=
    { text := "a\nb".data
      filename := none
      cursor_col := 0
      cursor_row := 1
      shift_row := 0
      mode := .Normal
      cmd_message := []
      dirty := false }
    prefered_col := some 0
    prev_cursor_row := 0
    prev_cursor_col := 0 }

/-- C7 counterexample: Esc is a non-vertical action, yet after `j` then Esc
the sticky column is still set — only character keys other than `j`/`k`
clear it. -/
theorem c7_counterexample_esc_keeps_sticky :
    runKeys 80 24 true (initLoop (initEditor "a\nb".data none)) []
      [.char 'j', .esc] = .ok c7Final [] ∧
    c7Final.prefered_col = some 0 := by
  decide

/-! ## Sticky-column preservation of the individual handlers -/

/-- Handler `moveLeft` never touches the sticky column. -/
theorem prefered_moveLeft (fs : FS) (fs' : FS) (s s' : LoopState)
    (h : moveLeft fs s = some (.cont s', fs')) :
    s'.prefered_col = s.prefered_col := by
  simp only [moveLeft] at h
  repeat' split at h
  all_goals
    first
    | (simp only [Option.some.injEq, Prod.mk.injEq, StepRes.cont.injEq] at h
       obtain ⟨rfl, rfl⟩ := h
       rfl)
    | simp at h

/-- Handler `moveRight` never touches the sticky column. -/
theorem prefered_moveRight (cols : Nat) (fs : FS) (fs' : FS) (s s' : LoopState)
    (h : moveRight cols fs s = some (.cont s', fs')) :
    s'.prefered_col = s.prefered_col := by
  simp only [moveRight] at h
  repeat' split at h
  all_goals
    first
    | (simp only [Option.some.injEq, Prod.mk.injEq, StepRes.cont.injEq] at h
       obtain ⟨rfl, rfl⟩ := h
       rfl)
    | simp at h

/-- Handler `openCommandLine` never touches the sticky column. -/
theorem prefered_openCommandLine (rows : Nat) (fs : FS) (fs' : FS) (s s' : LoopState)
    (h : openCommandLine rows fs s = some (.cont s', fs')) :
    s'.prefered_col = s.prefered_col := by
  simp only [openCommandLine] at h
  repeat' split at h
  all_goals
    first
    | (simp only [Option.some.injEq, Prod.mk.injEq, StepRes.cont.injEq] at h
       obtain ⟨rfl, rfl⟩ := h
       rfl)
    | simp at h

/-- Handler `enterInsert` never touches the sticky column. -/
theorem prefered_enterInsert (fs : FS) (fs' : FS) (s s' : LoopState)
    (h : enterInsert fs s = some (.cont s', fs')) :
    s'.prefered_col = s.prefered_col := by
  simp only [enterInsert] at h
  repeat' split at h
  all_goals
    first
    | (simp only [Option.some.injEq, Prod.mk.injEq, StepRes.cont.injEq] at h
       obtain ⟨rfl, rfl⟩ := h
       rfl)
    | simp at h

/-- Handler `enterInsertAppend` never touches the sticky column. -/
theorem prefered_enterInsertAppend (fs : FS) (fs' : FS) (s s' : LoopState)
    (h : enterInsertAppend fs s = some (.cont s', fs')) :
    s'.prefered_col = s.prefered_col := by
  simp only [enterInsertAppend] at h
  repeat' split at h
  all_goals
    first
    | (simp only [Option.some.injEq, Prod.mk.injEq, StepRes.cont.injEq] at h
       obtain ⟨rfl, rfl⟩ := h
       rfl)
    | simp at h

/-- Handler `enterInsertLineStart` never touches the sticky column. -/
theorem prefered_enterInsertLineStart (fs : FS) (fs' : FS) (s s' : LoopState)
    (h : enterInsertLineStart fs s = some (.cont s', fs')) :
    s'.prefered_col = s.prefered_col := by
  simp only [enterInsertLineStart] at h
  repeat' split at h
  all_goals
    first
    | (simp only [Option.some.injEq, Prod.mk.injEq, StepRes.cont.injEq] at h
       obtain ⟨rfl, rfl⟩ := h
       rfl)
    | simp at h

/-- Handler `enterInsertLineEnd` never touches the sticky column. -/
theorem prefered_enterInsertLineEnd (fs : FS) (fs' : FS) (s s' : LoopState)
    (h : enterInsertLineEnd fs s = some (.cont s', fs')) :
    s'.prefered_col = s.prefered_col := by
  simp only [enterInsertLineEnd] at h
  repeat' split at h
  all_goals
    first
    | (simp only [Option.some.injEq, Prod.mk.injEq, StepRes.cont.injEq] at h
       obtain ⟨rfl, rfl⟩ := h
       rfl)
    | simp at h

/-- Handler `openLineBelow` never touches the sticky column. -/
theorem prefered_openLineBelow (fs : FS) (fs' : FS) (s s' : LoopState)
    (h : openLineBelow fs s = some (.cont s', fs')) :
    s'.prefered_col = s.prefered_col := by
  simp only [openLineBelow] at h
  repeat' split at h
  all_goals
    first
    | (simp only [Option.some.injEq, Prod.mk.injEq, StepRes.cont.injEq] at h
       obtain ⟨rfl, rfl⟩ := h
       rfl)
    | simp at h

/-- Handler `openLineAbove` never touches the sticky column. -/
theorem prefered_openLineAbove (fs : FS) (fs' : FS) (s s' : LoopState)
    (h : openLineAbove fs s = some (.cont s', fs')) :
    s'.prefered_col = s.prefered_col := by
  simp only [openLineAbove] at h
  repeat' split at h
  all_goals
    first
    | (simp only [Option.some.injEq, Prod.mk.injEq, StepRes.cont.injEq] at h
       obtain ⟨rfl, rfl⟩ := h
       rfl)
    | simp at h

/-- Handler `commandInsertChar` never touches the sticky column. -/
theorem prefered_commandInsertChar (c : Char) (fs : FS) (fs' : FS) (s s' : LoopState)
    (h : commandInsertChar c fs s = some (.cont s', fs')) :
    s'.prefered_col = s.prefered_col := by
  simp only [commandInsertChar] at h
  repeat' split at h
  all_goals
    first
    | (simp only [Option.some.injEq, Prod.mk.injEq, StepRes.cont.injEq] at h
       obtain ⟨rfl, rfl⟩ := h
       rfl)
    | simp at h

/-- Handler `insertChar` never touches the sticky column. -/
theorem prefered_insertChar (c : Char) (fs : FS) (fs' : FS) (s s' : LoopState)
    (h : insertChar c fs s = some (.cont s', fs')) :
    s'.prefered_col = s.prefered_col := by
  simp only [insertChar] at h
  repeat' split at h
  all_goals
    first
    | (simp only [Option.some.injEq, Prod.mk.injEq, StepRes.cont.injEq] at h
       obtain ⟨rfl, rfl⟩ := h
       rfl)
    | simp at h

/-- Handler `commandBackspace` never touches the sticky column. -/
theorem prefered_commandBackspace (fs : FS) (fs' : FS) (s s' : LoopState)
    (h : commandBackspace fs s = some (.cont s', fs')) :
    s'.prefered_col = s.prefered_col := by
  simp only [commandBackspace] at h
  repeat' split at h
  all_goals
    first
    | (simp only [Option.some.injEq, Prod.mk.injEq, StepRes.cont.injEq] at h
       obtain ⟨rfl, rfl⟩ := h
       rfl)
    | simp at h

/-- Handler `insertBackspace` never touches the sticky column. -/
theorem prefered_insertBackspace (fs : FS) (fs' : FS) (s s' : LoopState)
    (h : insertBackspace fs s = some (.cont s', fs')) :
    s'.prefered_col = s.prefered_col := by
  simp only [insertBackspace] at h
  repeat' split at h
  all_goals
    first
    | (simp only [Option.some.injEq, Prod.mk.injEq, StepRes.cont.injEq] at h
       obtain ⟨rfl, rfl⟩ := h
       rfl)
    | simp at h

/-- Handler `commandEsc` never touches the sticky column. -/
theorem prefered_commandEsc (fs : FS) (fs' : FS) (s s' : LoopState)
    (h : commandEsc fs s = some (.cont s', fs')) :
    s'.prefered_col = s.prefered_col := by
  simp only [commandEsc] at h
  repeat' split at h
  all_goals
    first
    | (simp only [Option.some.injEq, Prod.mk.injEq, StepRes.cont.injEq] at h
       obtain ⟨rfl, rfl⟩ := h
       rfl)
    | simp at h

/-- Handler `insertEsc` never touches the sticky column. -/
theorem prefered_insertEsc (fs : FS) (fs' : FS) (s s' : LoopState)
    (h : insertEsc fs s = some (.cont s', fs')) :
    s'.prefered_col = s.prefered_col := by
  simp only [insertEsc] at h
  repeat' split at h
  all_goals
    first
    | (simp only [Option.some.injEq, Prod.mk.injEq, StepRes.cont.injEq] at h
       obtain ⟨rfl, rfl⟩ := h
       rfl)
    | simp at h

/-- Handler `interpretEnter` never touches the sticky column. -/
theorem prefered_interpretEnter (writeOk : Bool) (fs : FS) (fs' : FS) (s s' : LoopState)
    (h : interpretEnter writeOk fs s = some (.cont s', fs')) :
    s'.prefered_col = s.prefered_col := by
  simp only [interpretEnter] at h
  repeat' split at h
  all_goals
    first
    | (simp only [Option.some.injEq, Prod.mk.injEq, StepRes.cont.injEq] at h
       obtain ⟨rfl, rfl⟩ := h
       rfl)
    | simp at h

/-- Handler `insertNewline` never touches the sticky column. -/
theorem prefered_insertNewline (fs : FS) (fs' : FS) (s s' : LoopState)
    (h : insertNewline fs s = some (.cont s', fs')) :
    s'.prefered_col = s.prefered_col := by
  simp only [insertNewline] at h
  repeat' split at h
  all_goals
    first
    | (simp only [Option.some.injEq, Prod.mk.injEq, StepRes.cont.injEq] at h
       obtain ⟨rfl, rfl⟩ := h
       rfl)
    | simp at h

/-- C7 amended: the sticky column is cleared by every character-key event
whose character is not `j`/`k` (in any mode — this covers horizontal motion
and the mode-change keys), but it persists across Backspace, Enter and Esc,
which are non-character key events. -/
theorem c7_amended_sticky_clearing (cols rows : Nat) (writeOk : Bool)
    (fs fs' : FS) (s s' : LoopState) (k : Key) :
    ((∃ c, k = .char c ∧ c ≠ 'j' ∧ c ≠ 'k') →
      step cols rows writeOk fs s k = some (.cont s', fs') →
      s'.prefered_col = none) ∧
    ((k = .backspace ∨ k = .enter ∨ k = .esc) →
      step cols rows writeOk fs s k = some (.cont s', fs') →
      s'.prefered_col = s.prefered_col) := by
  constructor
  · rintro ⟨c, rfl, h1, h2⟩ h
    obtain ⟨⟨text, fn, cc, cr, sr, mode, msg, dirty⟩, pc, pr, pcc⟩ := s
    simp only [step] at h
    rw [if_pos (show c ≠ 'j' ∧ c ≠ 'k' from ⟨h1, h2⟩)] at h
    cases mode
    · simp only [dispatchChar] at h
      by_cases hq : c = 'q'
      · rw [if_pos hq] at h
        simp only [Option.some.injEq, Prod.mk.injEq, StepRes.cont.injEq] at h
        obtain ⟨rfl, rfl⟩ := h
        rfl
      rw [if_neg hq] at h
      by_cases hh : c = 'h'
      · rw [if_pos hh] at h
        exact prefered_moveLeft _ _ _ _ h
      rw [if_neg hh, if_neg h1, if_neg h2] at h
      by_cases hl : c = 'l'
      · rw [if_pos hl] at h
        exact prefered_moveRight _ _ _ _ _ h
      rw [if_neg hl] at h
      by_cases hco : c = ':'
      · rw [if_pos hco] at h
        exact prefered_openCommandLine _ _ _ _ _ h
      rw [if_neg hco] at h
      by_cases hi : c = 'i'
      · rw [if_pos hi] at h
        exact prefered_enterInsert _ _ _ _ h
      rw [if_neg hi] at h
      by_cases ha : c = 'a'
      · rw [if_pos ha] at h
        exact prefered_enterInsertAppend _ _ _ _ h
      rw [if_neg ha] at h
      by_cases hI : c = 'I'
      · rw [if_pos hI] at h
        exact prefered_enterInsertLineStart _ _ _ _ h
      rw [if_neg hI] at h
      by_cases hA : c = 'A'
      · rw [if_pos hA] at h
        exact prefered_enterInsertLineEnd _ _ _ _ h
      rw [if_neg hA] at h
      by_cases ho : c = 'o'
      · rw [if_pos ho] at h
        exact prefered_openLineBelow _ _ _ _ h
      rw [if_neg ho] at h
      by_cases hO : c = 'O'
      · rw [if_pos hO] at h
        exact prefered_openLineAbove _ _ _ _ h
      rw [if_neg hO] at h
      simp only [Option.some.injEq, Prod.mk.injEq, StepRes.cont.injEq] at h
      obtain ⟨rfl, rfl⟩ := h
      rfl
    · simp only [dispatchChar] at h
      exact prefered_insertChar _ _ _ _ _ h
    · simp only [dispatchChar] at h
      exact prefered_commandInsertChar _ _ _ _ _ h
  · rintro (rfl | rfl | rfl) h <;>
      obtain ⟨⟨text, fn, cc, cr, sr, mode, msg, dirty⟩, pc, pr, pcc⟩ := s <;>
      simp only [step] at h <;>
      cases mode
    all_goals
      first
      | exact prefered_commandBackspace _ _ _ _ h
      | exact prefered_insertBackspace _ _ _ _ h
      | exact prefered_commandEsc _ _ _ _ h
      | exact prefered_insertEsc _ _ _ _ h
      | exact prefered_interpretEnter _ _ _ _ _ h
      | exact prefered_insertNewline _ _ _ _ h
      | (simp only [Option.some.injEq, Prod.mk.injEq, StepRes.cont.injEq] at h
         obtain ⟨rfl, rfl⟩ := h
         rfl)

/-- Normal-mode state with a sticky column set. -/
def c7Sticky : LoopState :=
  { editor := initEditor "ab".data none
    prefered_col := some 5
    prev_cursor_row := 0
    prev_cursor_col := 0 }

/-- Witness for `c7_amended_sticky_clearing`: pressing `h` clears the
sticky column. -/
theorem c7_amended_sticky_clearing_witness :
    ({ editor := initEditor "ab".data none
       prefered_col := none
       prev_cursor_row := 0
       prev_cursor_col := 0 } : LoopState).prefered_col = none :=
  (c7_amended_sticky_clearing 80 24 true [] [] c7Sticky _ (.char 'h')).1
    ⟨'h', rfl, by decide, by decide⟩ (by decide)

/-! ## Claim C6 -/

/-- C6: after any single `j` or `k` step in Normal mode during which the
sticky column holds (or is captured as) the value `c`, the cursor column is
exactly `min c (current line length)`, the line length being taken at the
cursor position after the move. -/
theorem c6_sticky_column_vertical_move (cols rows : Nat) (writeOk : Bool)
    (fs fs' : FS) (s s' : LoopState) (c : Nat) (k : Key)
    (hm : s.editor.mode = .Normal)
    (hk : k = .char 'j' ∨ k = .char 'k')
    (hc : s.prefered_col = some c ∨
      (s.prefered_col = none ∧ s.editor.cursor_col = c))
    (h : step cols rows writeOk fs s k = some (.cont s', fs')) :
    s'.prefered_col = some c ∧
    ∃ lm, s'.editor.line_max = some lm ∧ s'.editor.cursor_col = min c lm := by
  obtain ⟨⟨text, fn, cc, cr, sr, mode, msg, dirty⟩, pc, pr, pcc⟩ := s
  simp only at hm hc
  subst hm
  rcases hk with hk | hk <;> subst hk
  · replace h : moveDown rows fs
        ⟨⟨text, fn, cc, cr, sr, .Normal, msg, dirty⟩, pc, pr, pcc⟩ =
        some (.cont s', fs') := h
    simp only [moveDown] at h
    rcases hc with hc | ⟨hc, hcc⟩
    · subst hc
      split at h
      · exact absurd h (by simp)
      · rename_i lm heq
        simp only [Option.some.injEq, Prod.mk.injEq, StepRes.cont.injEq] at h
        obtain ⟨rfl, rfl⟩ := h
        exact ⟨rfl, lm, heq, rfl⟩
    · subst hc
      subst hcc
      split at h
      · exact absurd h (by simp)
      · rename_i lm heq
        simp only [Option.some.injEq, Prod.mk.injEq, StepRes.cont.injEq] at h
        obtain ⟨rfl, rfl⟩ := h
        exact ⟨rfl, lm, heq, rfl⟩
  · replace h : moveUp fs
        ⟨⟨text, fn, cc, cr, sr, .Normal, msg, dirty⟩, pc, pr, pcc⟩ =
        some (.cont s', fs') := h
    simp only [moveUp] at h
    rcases hc with hc | ⟨hc, hcc⟩
    · subst hc
      split at h
      · exact absurd h (by simp)
      · rename_i lm heq
        simp only [Option.some.injEq, Prod.mk.injEq, StepRes.cont.injEq] at h
        obtain ⟨rfl, rfl⟩ := h
        exact ⟨rfl, lm, heq, rfl⟩
    · subst hc
      subst hcc
      split at h
      · exact absurd h (by simp)
      · rename_i lm heq
        simp only [Option.some.injEq, Prod.mk.injEq, StepRes.cont.injEq] at h
        obtain ⟨rfl, rfl⟩ := h
        exact ⟨rfl, lm, heq, rfl⟩

/-- Normal-mode two-line state about to move down. -/
def c6Start : LoopState := initLoop (initEditor "ab\ncdef".data none)

/-- The state after `j` from `c6Start` on a 24-row terminal. -/
def c6Next : LoopState :=
  { editor :=
    { text := "ab\ncdef".data
      filename := none
      cursor_col := 0
      cursor_row := 1
      shift_row := 0
      mode := .Normal
      cmd_message := []
      dirty := false }
    prefered_col := some 0
    prev_cursor_row := 0
    prev_cursor_col := 0 }

/-- Witness for `c6_sticky_column_vertical_move` at a concrete move. -/
theorem c6_sticky_column_vertical_move_witness :
    c6Next.prefered_col = some 0 ∧
    ∃ lm, c6Next.editor.line_max = some lm ∧
      c6Next.editor.cursor_col = min 0 lm :=
  c6_sticky_column_vertical_move 80 24 true [] [] c6Start c6Next 0
    (.char 'j') rfl (Or.inl rfl) (Or.inr ⟨rfl, rfl⟩) (by decide)

/-! ## Claim C9 -/

/-- Key `h` keeps the cursor column within the current line and moves neither
the cursor row nor the text. -/
theorem moveLeft_bounds (fs : FS) (s : LoopState) (L : Nat)
    (hL : s.editor.line_max = some L) (hc : s.editor.cursor_col ≤ L) :
    ∃ s', moveLeft fs s = some (.cont s', fs) ∧
      s'.editor.mode = s.editor.mode ∧ s'.editor.line_max = some L ∧
      s'.editor.cursor_col ≤ L := by
  simp only [moveLeft]
  split
  · refine ⟨_, rfl, rfl, hL, ?_⟩
    show s.editor.cursor_col - 1 ≤ L
    omega
  · exact ⟨_, rfl, rfl, hL, hc⟩

/-- Key `l` keeps the cursor column within the current line and moves neither
the cursor row nor the text. -/
theorem moveRight_bounds (cols : Nat) (fs : FS) (s : LoopState) (L : Nat)
    (hL : s.editor.line_max = some L) (hc : s.editor.cursor_col ≤ L) :
    ∃ s', moveRight cols fs s = some (.cont s', fs) ∧
      s'.editor.mode = s.editor.mode ∧ s'.editor.line_max = some L ∧
      s'.editor.cursor_col ≤ L := by
  simp only [moveRight]
  split
  · exact ⟨_, rfl, rfl, hL, hc⟩
  · split
    · rename_i hnone
      rw [hL] at hnone
      cases hnone
    · rename_i lm hsome
      rw [hL] at hsome
      injection hsome with hlm
      subst hlm
      split
      · refine ⟨_, rfl, rfl, hL, ?_⟩
        show s.editor.cursor_col + 1 ≤ L
        omega
      · exact ⟨_, rfl, rfl, hL, hc⟩

/-- One `h` or `l` step from Normal mode succeeds and preserves the bound
`cursor_col ≤ current_line_length`. -/
theorem hl_step_bounds (cols rows : Nat) (writeOk : Bool) (fs : FS)
    (s : LoopState) (L : Nat) (k : Key)
    (hm : s.editor.mode = .Normal)
    (hL : s.editor.line_max = some L)
    (hc : s.editor.cursor_col ≤ L)
    (hk : k = .char 'h' ∨ k = .char 'l') :
    ∃ s', step cols rows writeOk fs s k = some (.cont s', fs) ∧
      s'.editor.mode = .Normal ∧ s'.editor.line_max = some L ∧
      s'.editor.cursor_col ≤ L := by
  obtain ⟨⟨text, fn, cc, cr, sr, mode, msg, dirty⟩, pc, pr, pcc⟩ := s
  simp only at hm hL hc
  subst hm
  rcases hk with rfl | rfl
  · obtain ⟨s', he, hmode, hL', hc'⟩ :=
      moveLeft_bounds fs
        ⟨⟨text, fn, cc, cr, sr, .Normal, msg, dirty⟩, none, pr, pcc⟩ L hL hc
    exact ⟨s', he, hmode, hL', hc'⟩
  · obtain ⟨s', he, hmode, hL', hc'⟩ :=
      moveRight_bounds cols fs
        ⟨⟨text, fn, cc, cr, sr, .Normal, msg, dirty⟩, none, pr, pcc⟩ L hL hc
    exact ⟨s', he, hmode, hL', hc'⟩

/-- C9: along any sequence of `h`/`l` motions from a Normal-mode state
whose cursor column is within the current line, after every prefix the run
is still alive and `cursor_col` lies in `[0, L]` where `L` is the (never
changing) current line length; the lower bound is inherent in `Nat`. -/
theorem c9_horizontal_motion_bounds (cols rows : Nat) (writeOk : Bool)
    (fs : FS) (s : LoopState) (keys : List Key) (L : Nat)
    (hm : s.editor.mode = .Normal)
    (hL : s.editor.line_max = some L)
    (hc : s.editor.cursor_col ≤ L)
    (hk : ∀ k ∈ keys, k = .char 'h' ∨ k = .char 'l') :
    ∀ n, ∃ s', runKeys cols rows writeOk s fs (keys.take n) = .ok s' fs ∧
      s'.editor.line_max = some L ∧ s'.editor.cursor_col ≤ L ∧
      s'.editor.mode = .Normal := by
  induction keys generalizing s with
  | nil =>
    intro n
    exact ⟨s, by simp [runKeys], hL, hc, hm⟩
  | cons k ks ih =>
    intro n
    cases n with
    | zero => exact ⟨s, rfl, hL, hc, hm⟩
    | succ m =>
      obtain ⟨s1, he, hm1, hL1, hc1⟩ :=
        hl_step_bounds cols rows writeOk fs s L k hm hL hc (hk k (by simp))
      obtain ⟨s', hrun, hL', hc', hm'⟩ :=
        ih s1 hm1 hL1 hc1 (fun x hx => hk x (by simp [hx])) m
      refine ⟨s', ?_, hL', hc', hm'⟩
      rw [List.take_succ_cons]
      simp only [runKeys]
      rw [he]
      exact hrun

/-- Witness for `c9_horizontal_motion_bounds`: two `l` presses on `abc`. -/
theorem c9_horizontal_motion_bounds_witness :
    ∃ s', runKeys 80 24 true (initLoop (initEditor "abc".data none)) []
        ([Key.char 'l', Key.char 'l'].take 2) = .ok s' [] ∧
      s'.editor.line_max = some 3 ∧ s'.editor.cursor_col ≤ 3 ∧
      s'.editor.mode = .Normal :=
  c9_horizontal_motion_bounds 80 24 true []
    (initLoop (initEditor "abc".data none)) [.char 'l', .char 'l'] 3
    rfl (by decide) (by decide) (by decide) 2

/-! ## Claim C10 -/

/-- A valid cursor line index makes `line_max` succeed. -/
theorem line_max_isSome (e : Editor)
    (hv : e.shift_row + e.cursor_row < lenLines e.text) :
    ∃ L, e.line_max = some L := by
  obtain ⟨l, hl⟩ := lineAt_isSome e.text _ hv
  exact ⟨l.length, by simp [Editor.line_max, Editor.currline, hl]⟩

/-- The offset just after the stripped text of line `i` is within the
buffer. -/
theorem line_end_offset_le (t : List Char) (i : Nat) (lf : List Char)
    (hlf : (ropeLines t)[i]? = some lf) :
    lineToChar t i + (stripNewline lf).length ≤ t.length := by
  have h1 := lineToChar_succ t i lf hlf
  have h2 := lineToChar_le t (i + 1)
  have h3 := stripNewline_length_le lf
  omega

/-- C10: every Normal-mode transition into Insert mode (`i`, `a`, `I`, `A`,
`o`, `O`) clears the status/command message, and the transition into
Command mode (`:`) resets it to the bare `:` prompt, erasing any previous
message. -/
theorem c10_mode_entry_clears_message (cols rows : Nat) (writeOk : Bool)
    (fs : FS) (s : LoopState) (k : Key)
    (hm : s.editor.mode = .Normal)
    (hv : s.editor.shift_row + s.editor.cursor_row < lenLines s.editor.text) :
    ((k = .char 'i' ∨ k = .char 'a' ∨ k = .char 'I' ∨ k = .char 'A' ∨
      k = .char 'o' ∨ k = .char 'O') →
      ∃ s', step cols rows writeOk fs s k = some (.cont s', fs) ∧
        s'.editor.mode = .Insert ∧ s'.editor.cmd_message = []) ∧
    (k = .char ':' →
      ∃ s', step cols rows writeOk fs s k = some (.cont s', fs) ∧
        s'.editor.mode = .Command ∧ s'.editor.cmd_message = [':']) := by
  obtain ⟨⟨text, fn, cc, cr, sr, mode, msg, dirty⟩, pc, pr, pcc⟩ := s
  simp only at hm hv
  subst hm
  have hlf0 : sr + cr < (ropeLines text).length := hv
  obtain ⟨lf, hlf⟩ : ∃ lf, (ropeLines text)[sr + cr]? = some lf :=
    ⟨_, List.getElem?_eq_getElem hlf0⟩
  have hline : Editor.line_max ⟨text, fn, cc, cr, sr, .Normal, msg, dirty⟩ =
      some (stripNewline lf).length := by
    simp [Editor.line_max, Editor.currline, lineAt, hlf]
  have hlf' : (ropeLines text)[cr + sr]? = some lf := by
    rw [Nat.add_comm]
    exact hlf
  constructor
  · rintro (rfl | rfl | rfl | rfl | rfl | rfl)
    · exact ⟨_, rfl, rfl, rfl⟩
    · refine ⟨⟨⟨text, fn, min (cc + 1) (stripNewline lf).length, cr, sr,
        .Insert, [], dirty⟩, none, pr, pcc⟩, ?_, rfl, rfl⟩
      show enterInsertAppend fs
        ⟨⟨text, fn, cc, cr, sr, .Normal, msg, dirty⟩, none, pr, pcc⟩ = _
      simp only [enterInsertAppend, hline]
    · exact ⟨_, rfl, rfl, rfl⟩
    · refine ⟨⟨⟨text, fn, (stripNewline lf).length, cr, sr,
        .Insert, [], dirty⟩, none, pr, pcc⟩, ?_, rfl, rfl⟩
      show enterInsertLineEnd fs
        ⟨⟨text, fn, cc, cr, sr, .Normal, msg, dirty⟩, none, pr, pcc⟩ = _
      simp only [enterInsertLineEnd, hline]
    · refine ⟨⟨⟨text.take (lineToChar text (cr + sr) + (stripNewline lf).length)
          ++ '\n' :: text.drop (lineToChar text (cr + sr) + (stripNewline lf).length),
        fn, 0, cr + 1, sr, .Insert, [], true⟩, none, pr, pcc⟩, ?_, rfl, rfl⟩
      show openLineBelow fs
        ⟨⟨text, fn, cc, cr, sr, .Normal, msg, dirty⟩, none, pr, pcc⟩ = _
      simp only [openLineBelow, hline,
        show lineToCharOpt text (cr + sr) =
          some (lineToChar text (cr + sr)) from if_pos (by omega),
        show insertCharAt text
            (lineToChar text (cr + sr) + (stripNewline lf).length) '\n' =
          some (text.take (lineToChar text (cr + sr) + (stripNewline lf).length)
            ++ '\n' :: text.drop
              (lineToChar text (cr + sr) + (stripNewline lf).length)) from
        if_pos (line_end_offset_le text (cr + sr) lf hlf')]
    · refine ⟨⟨⟨text.take (lineToChar text (cr + sr))
          ++ '\n' :: text.drop (lineToChar text (cr + sr)),
        fn, 0, cr, sr, .Insert, [], true⟩, none, pr, pcc⟩, ?_, rfl, rfl⟩
      show openLineAbove fs
        ⟨⟨text, fn, cc, cr, sr, .Normal, msg, dirty⟩, none, pr, pcc⟩ = _
      simp only [openLineAbove,
        show lineToCharOpt text (cr + sr) =
          some (lineToChar text (cr + sr)) from if_pos (by omega),
        show insertCharAt text (lineToChar text (cr + sr)) '\n' =
          some (text.take (lineToChar text (cr + sr))
            ++ '\n' :: text.drop (lineToChar text (cr + sr))) from
        if_pos (lineToChar_le text (cr + sr))]
  · rintro rfl
    exact ⟨_, rfl, rfl, rfl⟩

/-- Witness for `c10_mode_entry_clears_message`: `o` on a one-line file. -/
theorem c10_mode_entry_clears_message_witness :
    ∃ s', step 80 24 true [] (initLoop (initEditor "ab".data none))
        (.char 'o') = some (.cont s', []) ∧
      s'.editor.mode = .Insert ∧ s'.editor.cmd_message = [] :=
  (c10_mode_entry_clears_message 80 24 true []
    (initLoop (initEditor "ab".data none)) (.char 'o') rfl (by decide)).1
    (Or.inr (Or.inr (Or.inr (Or.inr (Or.inl rfl)))))

/-- C5 amended: Backspace in Insert mode is a no-op exactly when the screen
position `(cursor_row, cursor_col)` is `(0, 0)` — i.e. the top-left of the
viewport, regardless of `shift_row` — not when the cursor is at the start
of the document; at column 0 with a nonzero screen row the line merges with
the previous buffer line (the newline before the line start is removed) and
the cursor lands at the end of that previous line; otherwise the character
before the cursor is deleted and the column decreases by one. -/
theorem c5_amended_backspace_cases (cols rows : Nat) (writeOk : Bool)
    (fs : FS) (s : LoopState) (cl : List Char)
    (hm : s.editor.mode = .Insert)
    (hcl : s.editor.currline = some cl)
    (hcol : s.editor.cursor_col ≤ cl.length) :
    (s.editor.cursor_col = 0 ∧ s.editor.cursor_row = 0 →
      step cols rows writeOk fs s .backspace = some (.cont s, fs)) ∧
    (s.editor.cursor_col = 0 → s.editor.cursor_row ≠ 0 →
      ∃ s' prev,
        step cols rows writeOk fs s .backspace = some (.cont s', fs) ∧
        lineAt s.editor.text (s.editor.cursor_row + s.editor.shift_row - 1) =
          some prev ∧
        s'.editor.cursor_row = s.editor.cursor_row - 1 ∧
        s'.editor.cursor_col = prev.length ∧
        s'.editor.shift_row = s.editor.shift_row ∧
        s'.editor.text =
          s.editor.text.take
            (lineToChar s.editor.text
              (s.editor.cursor_row + s.editor.shift_row) - 1) ++
          s.editor.text.drop
            (lineToChar s.editor.text
              (s.editor.cursor_row + s.editor.shift_row))) ∧
    (s.editor.cursor_col ≠ 0 →
      ∃ s',
        step cols rows writeOk fs s .backspace = some (.cont s', fs) ∧
        s'.editor.cursor_row = s.editor.cursor_row ∧
        s'.editor.cursor_col = s.editor.cursor_col - 1 ∧
        s'.editor.text =
          s.editor.text.take
            (lineToChar s.editor.text
              (s.editor.cursor_row + s.editor.shift_row) +
              s.editor.cursor_col - 1) ++
          s.editor.text.drop
            (lineToChar s.editor.text
              (s.editor.cursor_row + s.editor.shift_row) +
              s.editor.cursor_col)) := by
  obtain ⟨⟨text, fn, cc, cr, sr, mode, msg, dirty⟩, pc, pr, pcc⟩ := s
  simp only at hm hcl hcol ⊢
  subst hm
  have hv : sr + cr < lenLines text := lt_lenLines_of_lineAt _ _ _ hcl
  refine ⟨?_, ?_, ?_⟩
  · rintro ⟨h1, h2⟩
    subst h1
    subst h2
    rfl
  · intro h1 h2
    subst h1
    obtain ⟨cr', rfl⟩ : ∃ cr', cr = cr' + 1 := ⟨cr - 1, by omega⟩
    obtain ⟨plf, hplf⟩ : ∃ plf, (ropeLines text)[sr + cr']? = some plf :=
      ⟨_, List.getElem?_eq_getElem (by
        show sr + cr' < (ropeLines text).length
        have : lenLines text = (ropeLines text).length := rfl
        omega)⟩
    have hprevmax : Editor.line_max
        ⟨text, fn, 0, cr', sr, .Insert, msg, dirty⟩ =
        some (stripNewline plf).length := by
      simp [Editor.line_max, Editor.currline, lineAt, hplf]
    have hpos1 : 1 ≤ lineToChar text (cr' + 1 + sr) :=
      lineToChar_pos text (cr' + 1 + sr) (by omega) (by omega)
    have hne : ¬(lineToChar text (cr' + 1 + sr) = 0) := by omega
    refine ⟨⟨⟨text.take (lineToChar text (cr' + 1 + sr) - 1) ++
        text.drop (lineToChar text (cr' + 1 + sr)), fn,
        (stripNewline plf).length, cr', sr, .Insert, msg, dirty⟩,
        pc, pr, pcc⟩, stripNewline plf, ?_, ?_, rfl, rfl, rfl, rfl⟩
    · show insertBackspace fs
        ⟨⟨text, fn, 0, cr' + 1, sr, .Insert, msg, dirty⟩, pc, pr, pcc⟩ = _
      simp only [insertBackspace, hprevmax, Nat.add_one_ne_zero, ne_eq, Nat.add_sub_cancel,
        eq_self_iff_true, not_true, not_false_eq_true, true_and, false_and,
        and_false, if_false, if_true,
        show lineToCharOpt text (cr' + 1 + sr) =
          some (lineToChar text (cr' + 1 + sr)) from if_pos (by omega),
        Nat.add_zero, if_neg hne,
        show removeRange text (lineToChar text (cr' + 1 + sr) - 1)
            (lineToChar text (cr' + 1 + sr)) =
          some (text.take (lineToChar text (cr' + 1 + sr) - 1) ++
            text.drop (lineToChar text (cr' + 1 + sr))) from
          if_pos ⟨by omega, lineToChar_le text _⟩]
    · rw [show cr' + 1 + sr - 1 = sr + cr' by omega]
      simp [lineAt, hplf]
  · intro hcc
    obtain ⟨cc', rfl⟩ : ∃ cc', cc = cc' + 1 := ⟨cc - 1, by omega⟩
    obtain ⟨lf, hlf, hstrip⟩ := Option.map_eq_some'.mp hcl
    have hlf' : (ropeLines text)[cr + sr]? = some lf := by
      rw [Nat.add_comm]
      exact hlf
    have hbound : lineToChar text (cr + sr) + (cc' + 1) ≤ text.length := by
      have h1 := line_end_offset_le text (cr + sr) lf hlf'
      have h2 : (stripNewline lf).length = cl.length := by rw [hstrip]
      omega
    have hne2 : ¬(lineToChar text (cr + sr) + (cc' + 1) = 0) := by omega
    refine ⟨⟨⟨text.take (lineToChar text (cr + sr) + (cc' + 1) - 1) ++
        text.drop (lineToChar text (cr + sr) + (cc' + 1)), fn,
        cc' + 1 - 1, cr, sr, .Insert, msg, dirty⟩,
        pc, pr, pcc⟩, ?_, rfl, rfl, rfl⟩
    show insertBackspace fs
      ⟨⟨text, fn, cc' + 1, cr, sr, .Insert, msg, dirty⟩, pc, pr, pcc⟩ = _
    simp only [insertBackspace, Nat.add_one_ne_zero, ne_eq, Nat.add_sub_cancel,
      if_neg hne2,
      eq_self_iff_true, not_true, not_false_eq_true, true_and, false_and,
      and_false, if_false, if_true,
      show lineToCharOpt text (cr + sr) =
        some (lineToChar text (cr + sr)) from if_pos (by omega),
      show removeRange text (lineToChar text (cr + sr) + (cc' + 1) - 1)
          (lineToChar text (cr + sr) + (cc' + 1)) =
        some (text.take (lineToChar text (cr + sr) + (cc' + 1) - 1) ++
          text.drop (lineToChar text (cr + sr) + (cc' + 1))) from
        if_pos ⟨by omega, hbound⟩]

/-- Insert-mode state with the cursor inside a one-line buffer. -/
def c5W : LoopState :=
  { editor :=
    { text := "ab".data
      filename := none
      cursor_col := 1
      cursor_row := 0
      shift_row := 0
      mode := .Insert
      cmd_message := []
      dirty := true }
    prefered_col := none
    prev_cursor_row := 0
    prev_cursor_col := 0 }

/-- Witness for `c5_amended_backspace_cases`: deleting inside a line. -/
theorem c5_amended_backspace_cases_witness :
    ∃ s', step 80 24 true [] c5W .backspace = some (.cont s', []) ∧
      s'.editor.cursor_row = c5W.editor.cursor_row ∧
      s'.editor.cursor_col = c5W.editor.cursor_col - 1 ∧
      s'.editor.text =
        c5W.editor.text.take
          (lineToChar c5W.editor.text
            (c5W.editor.cursor_row + c5W.editor.shift_row) +
            c5W.editor.cursor_col - 1) ++
        c5W.editor.text.drop
          (lineToChar c5W.editor.text
            (c5W.editor.cursor_row + c5W.editor.shift_row) +
            c5W.editor.cursor_col) :=
  (c5_amended_backspace_cases 80 24 true [] c5W ("ab".data)
    rfl (by decide) (by decide)).2.2 (by decide)

/-! ## Claim C8 -/

/-- C8 counterexample: starting with a filename that does not exist, the
file system is changed at startup already — the open call creates the file
(empty) before any save. -/
theorem c8_counterexample_file_created_at_startup :
    fsRead ([] : FS) "nofile.txt" = none ∧
    (startup [] (some "nofile.txt")).1 ≠ ([] : FS) ∧
    fsRead (startup [] (some "nofile.txt")).1 "nofile.txt" = some [] := by
  decide

/-- C8 amended: with a filename naming a missing file, startup creates the
file empty immediately (OpenOptions `create(true)`), loads an empty buffer
and remembers the path — the creation is not deferred to the first
successful write. -/
theorem c8_amended_startup_missing_file (fs : FS) (p : String)
    (h : fsRead fs p = none) :
    startup fs (some p) = (fsWrite fs p [], initEditor [] (some p)) ∧
    (startup fs (some p)).2.text = [] ∧
    (startup fs (some p)).2.filename = some p := by
  refine ⟨?_, ?_, ?_⟩ <;> simp [startup, h, initEditor]

/-- Witness for `c8_amended_startup_missing_file`. -/
theorem c8_amended_startup_missing_file_witness :
    startup [] (some "new.txt") =
      (fsWrite [] "new.txt" [], initEditor [] (some "new.txt")) ∧
    (startup [] (some "new.txt")).2.text = [] ∧
    (startup [] (some "new.txt")).2.filename = some "new.txt" :=
  c8_amended_startup_missing_file [] "new.txt" rfl
